import Mathlib

/-!
Verification development for the niuflow trade service core:
shallow embedding of the retry policy, exchange order wrapper,
order lifecycle manager, rate-limit admission and request
authentication, together with proofs of the specified properties.
-/

/-- Local order status; the repository stores exactly these four values
(src/types/index.ts, Order.status). -/
inductive OrderStatus
  | pending
  | filled
  | canceled
  | failed
  deriving DecidableEq, Repr

/-- Error classes of src/utils/error.ts, identified by their code field. -/
inductive ErrKind
  | validation
  | authentication
  | authorization
  | notFound
  | rateLimit
  | exchange
  | insufficientBalance
  | database
  | cache
  deriving DecidableEq, Repr

/-- An AppError value: its class tag and its message string. -/
structure Err where
  kind : ErrKind
  message : String
  deriving DecidableEq, Repr

/-- Whether the second character list occurs at the head of the first. -/
def charsStartWith : List Char → List Char → Bool
  | _, [] => true
  | [], _ :: _ => false
  | c :: cs, p :: ps => c == p && charsStartWith cs ps

/-- Whether the second character list occurs anywhere inside the first. -/
def charsContain : List Char → List Char → Bool
  | [], pat => charsStartWith [] pat
  | c :: cs, pat => charsStartWith (c :: cs) pat || charsContain cs pat

/-- JavaScript String.prototype.includes: substring containment. -/
def includesSub (s pat : String) : Bool :=
  charsContain s.toList pat.toList

/-- JavaScript String.prototype.toLowerCase, character by character
(ASCII letters are lowered; other characters are unchanged). -/
def strToLower (s : String) : String :=
  String.mk (s.toList.map Char.toLower)

/-- Embeds ExchangeService.isNonRetryableError
(src/services/ExchangeService.ts lines 103-115): the lowered message is
scanned for the business-rejection substrings. -/
def isNonRetryableError (e : Err) : Bool :=
  let message := strToLower e.message
  includesSub message "insufficient" ||
  includesSub message "balance" ||
  includesSub message "invalid symbol" ||
  includesSub message "invalid order"

/-- Outcome of running an operation under the retry policy: final result,
number of attempts performed, and the list of delays slept, in order
(the element at index i is the delay before attempt i+2). -/
structure RetryOutcome (α : Type) where
  result : Except Err α
  attempts : Nat
  delays : List Nat
  deriving Repr

/-- Loop body of ExchangeService.retryOperation
(src/services/ExchangeService.ts lines 66-101). The operation is given as
a map from the (1-based) attempt number to that attempt's outcome. After a
failure the error is classified; a non-retryable error or exhaustion of
maxRetries stops the loop, otherwise a delay of baseDelay * 2 ^ (attempt - 1)
is slept and the next attempt runs. -/
def retryGo {α : Type} (op : Nat → Except Err α) (maxRetries baseDelay attempt : Nat) :
    RetryOutcome α :=
  match op attempt with
  | .ok a => ⟨.ok a, attempt, []⟩
  | .error e =>
    if isNonRetryableError e then ⟨.error e, attempt, []⟩
    else if maxRetries ≤ attempt then ⟨.error e, attempt, []⟩
    else
      let delay := baseDelay * 2 ^ (attempt - 1)
      let rest := retryGo op maxRetries baseDelay (attempt + 1)
      ⟨rest.result, rest.attempts, delay :: rest.delays⟩
termination_by maxRetries - attempt
decreasing_by omega

/-- Embeds ExchangeService.retryOperation: attempts start at 1. -/
def retryOperation {α : Type} (op : Nat → Except Err α) (maxRetries baseDelay : Nat) :
    RetryOutcome α :=
  retryGo op maxRetries baseDelay 1

/-- Shape of a ccxt exchange order result as consumed by the service:
remote id, remote status string, filled amount and fee, each possibly
absent. -/
structure ExchOrder where
  id : Option String
  status : String
  filled : Option Int
  feeCost : Option Int
  feeCurrency : Option String
  deriving DecidableEq, Repr

/-- Embeds the inner catch of ExchangeService.createOrder
(src/services/ExchangeService.ts lines 252-267): a raw exchange error whose
lowered message mentions insufficient or balance is replaced by
InsufficientBalanceError with the default message, every other error is
wrapped as ExchangeError with the original message appended. -/
def wrapCreateError (e : Err) : Err :=
  let errorMessage := strToLower e.message
  if includesSub errorMessage "insufficient" || includesSub errorMessage "balance" then
    ⟨.insufficientBalance, "余额不足"⟩
  else
    ⟨.exchange, "订单创建失败: " ++ e.message⟩

/-- Embeds ExchangeService.createOrder (src/services/ExchangeService.ts
lines 223-279): the raw per-attempt exchange outcome, wrapped by the inner
catch, run under retryOperation with maxRetries 3 and baseDelay 1000. -/
def ExchangeService.createOrder (rawOp : Nat → Except Err ExchOrder) : RetryOutcome ExchOrder :=
  retryOperation (fun attempt =>
    match rawOp attempt with
    | .ok o => .ok o
    | .error e => .error (wrapCreateError e)) 3 1000

/-- A row of the users table (src/db/schema.sql, src/types/index.ts User).
Status is stored as the literal strings active, inactive, suspended. -/
structure UserRow where
  id : Nat
  apiKey : String
  apiSecret : String
  exchange : String
  exchangeApiKey : Option String
  exchangeSecret : Option String
  permissions : List String
  status : String
  deriving DecidableEq, Repr

/-- A row of the orders table. Optional columns are nullable in the
schema; error holds the lastError message. -/
structure OrderRow where
  id : Nat
  userId : Nat
  exchange : String
  exchangeOrderId : Option String
  symbol : String
  side : String
  otype : String
  price : Option Int
  amount : Int
  filled : Int
  status : OrderStatus
  fee : Option Int
  feeCurrency : Option String
  error : Option String
  deriving DecidableEq, Repr

/-- The record store: users, orders, and the sequence value the next
inserted order receives as id. -/
structure DBState where
  users : List UserRow
  orders : List OrderRow
  nextOrderId : Nat
  deriving DecidableEq, Repr

/-- SQL COALESCE of a new optional value with the stored one. -/
def coalesce {α : Type} (a b : Option α) : Option α :=
  match a with
  | some v => some v
  | none => b

/-- Embeds Database.getUserByApiKey (src/db/index.ts lines 139-143):
SELECT by api_key with the status filter fixed to active. -/
def Database.getUserByApiKey (db : DBState) (apiKey : String) : Option UserRow :=
  db.users.find? (fun u => u.apiKey == apiKey && u.status == "active")

/-- Embeds the raw user query SELECT * FROM users WHERE id = $1 used by
OrderService.getUserById (src/services/OrderService part, lines 555-561). -/
def Database.getUserById (db : DBState) (userId : Nat) : Option UserRow :=
  db.users.find? (fun u => u.id == userId)

/-- Embeds Database.createOrder (src/db/index.ts lines 146-174): insert of
a fresh order row; status defaults to pending, filled to 0, nullable
columns to NULL. -/
def Database.insertOrder (db : DBState) (userId : Nat)
    (exchange symbol side otype : String) (price : Option Int) (amount : Int) :
    OrderRow × DBState :=
  let row : OrderRow :=
    { id := db.nextOrderId, userId := userId, exchange := exchange,
      exchangeOrderId := none, symbol := symbol, side := side, otype := otype,
      price := price, amount := amount, filled := 0, status := .pending,
      fee := none, feeCurrency := none, error := none }
  (row, { db with orders := db.orders ++ [row], nextOrderId := db.nextOrderId + 1 })

/-- The row-level effect of Database.updateOrderStatus (src/db/index.ts
lines 176-188): status is overwritten, the other columns use COALESCE so
an absent argument keeps the stored value. -/
def updateOrderStatusRow (r : OrderRow) (status : OrderStatus) (filled fee : Option Int)
    (feeCurrency err : Option String) : OrderRow :=
  { r with status := status, filled := filled.getD r.filled,
           fee := coalesce fee r.fee, feeCurrency := coalesce feeCurrency r.feeCurrency,
           error := coalesce err r.error }

/-- Embeds Database.updateOrderStatus: UPDATE ... WHERE id = $1 RETURNING *.
Returns the updated row as found by id, and the new store. -/
def Database.updateOrderStatus (db : DBState) (orderId : Nat) (status : OrderStatus)
    (filled fee : Option Int) (feeCurrency err : Option String) :
    Option OrderRow × DBState :=
  let orders2 := db.orders.map
    (fun r => if r.id = orderId then updateOrderStatusRow r status filled fee feeCurrency err else r)
  (orders2.find? (fun r => r.id == orderId), { db with orders := orders2 })

/-- Embeds the raw UPDATE orders SET exchange_order_id = $1 WHERE id = $2
issued inside OrderService.createOrder. -/
def Database.setExchangeOrderId (db : DBState) (orderId : Nat) (eid : String) : DBState :=
  let orders2 := db.orders.map
    (fun r => if r.id = orderId then { r with exchangeOrderId := some eid } else r)
  { db with orders := orders2 }

/-- Embeds Database.getOrderById (src/db/index.ts lines 190-201): the
user filter is applied only when a user id is supplied. -/
def Database.getOrderById (db : DBState) (orderId : Nat) (userId : Option Nat) :
    Option OrderRow :=
  db.orders.find? (fun r =>
    r.id == orderId &&
    (match userId with
     | some uid => r.userId == uid
     | none => true))

/-- Which connection a statement was issued on: the shared pool used by
Database.query, or the dedicated client on which Database.transaction
issues BEGIN/COMMIT/ROLLBACK. -/
inductive Conn
  | pool
  | txClient
  deriving DecidableEq, Repr

/-- Observable I/O events of a lifecycle operation, in program order. -/
inductive Event
  | txBegin
  | txCommit
  | txRollback
  | sqlSelectUser (conn : Conn)
  | sqlInsertOrder (conn : Conn)
  | sqlUpdateOrder (conn : Conn)
  | sqlSetExchangeOrderId (conn : Conn)
  | exchangeCreateCall
  | exchangeCancelCall
  | exchangeFetchCall
  deriving DecidableEq, Repr

/-- The connection of an event, when the event is a SQL statement. -/
def sqlConn : Event → Option Conn
  | .sqlSelectUser c => some c
  | .sqlInsertOrder c => some c
  | .sqlUpdateOrder c => some c
  | .sqlSetExchangeOrderId c => some c
  | _ => none

/-- Result of a lifecycle operation: caller-visible outcome, final durable
store, and the event trace. Pool statements take durable effect
immediately (autocommit); the transaction client never carries a
statement in these flows, so COMMIT/ROLLBACK on it moves no data. -/
structure OpResult (α : Type) where
  result : Except Err α
  db : DBState
  trace : List Event

/-- An event lies strictly inside a BEGIN..COMMIT/ROLLBACK span of the
trace. -/
def insideTxnBoundary (tr : List Event) (ev : Event) : Prop :=
  ∃ i j k : Fin tr.length, i < j ∧ j < k ∧
    tr.get i = .txBegin ∧ tr.get j = ev ∧
    (tr.get k = .txCommit ∨ tr.get k = .txRollback)

instance (tr : List Event) (ev : Event) : Decidable (insideTxnBoundary tr ev) := by
  unfold insideTxnBoundary
  infer_instance

/-- Embeds OrderService.mapExchangeStatus (src/services/OrderService part,
lines 584-595): remote status strings map onto local statuses, anything
unrecognized defaults to pending. -/
def mapExchangeStatus (s : String) : OrderStatus :=
  if s = "open" then .pending
  else if s = "closed" then .filled
  else if s = "canceled" then .canceled
  else if s = "cancelled" then .canceled
  else if s = "rejected" then .failed
  else if s = "expired" then .failed
  else .pending

/-- A create request as received by OrderService.createOrder. -/
structure CreateOrderRequest where
  userId : Nat
  exchange : String
  symbol : String
  side : String
  otype : String
  amount : Int
  price : Option Int
  deriving DecidableEq, Repr

/-- Embeds OrderService.validateOrderParams (src/services/OrderService
part, lines 523-553), including the JavaScript falsiness of empty strings,
zero amounts and zero prices. Returns the ValidationError raised, if any. -/
def validateOrderParams (supported : List String) (req : CreateOrderRequest) : Option Err :=
  if req.symbol = "" then some ⟨.validation, "交易对符号无效"⟩
  else if req.side ≠ "buy" ∧ req.side ≠ "sell" then some ⟨.validation, "订单方向必须是buy或sell"⟩
  else if req.otype ≠ "limit" ∧ req.otype ≠ "market" then
    some ⟨.validation, "订单类型必须是limit或market"⟩
  else if req.amount ≤ 0 then some ⟨.validation, "订单数量必须大于0"⟩
  else if req.otype = "limit" ∧ req.price.getD 0 ≤ 0 then
    some ⟨.validation, "限价订单必须指定有效价格"⟩
  else if req.exchange = "" then some ⟨.validation, "交易所名称无效"⟩
  else if req.exchange ∉ supported then
    some ⟨.validation, "不支持的交易所: " ++ req.exchange⟩
  else none

/-- Embeds OrderService.getUserExchangeCredentials (lines 563-582):
missing or empty exchange credentials raise a ValidationError; decryption
is value-preserving for this model. -/
def getUserExchangeCredentials (u : UserRow) : Except Err (String × String) :=
  if u.exchangeApiKey.getD "" = "" ∨ u.exchangeSecret.getD "" = "" then
    .error ⟨.validation, "用户未配置交易所API凭据"⟩
  else
    .ok (u.exchangeApiKey.getD "", u.exchangeSecret.getD "")

/-- The RETURNING row of an update, or a DatabaseError when no row
matched (undefined row in the source). -/
def rowOrDbError (u : Option OrderRow) : Except Err OrderRow :=
  match u with
  | some r => .ok r
  | none => .error ⟨.database, "order row missing"⟩

/-- Embeds OrderService.createOrder (src/services/OrderService part,
lines 172-287). The user lookup passes the empty string as api key, as in
the source. The whole flow after the lookup runs inside the
database.transaction callback: BEGIN is issued on the dedicated client,
then the insert, the remote call, the status update and the
exchange_order_id update all happen before the closing COMMIT (or, when
the callback throws, ROLLBACK); each SQL statement goes through
database.query, hence through the pool, and is durable at once.
The remote argument is the outcome of the ExchangeService.createOrder
call. -/
def OrderService.createOrder (supported : List String) (db : DBState)
    (remote : Except Err ExchOrder) (req : CreateOrderRequest) : OpResult OrderRow :=
  match validateOrderParams supported req with
  | some e => ⟨.error e, db, []⟩
  | none =>
    match Database.getUserByApiKey db "" with
    | none => ⟨.error ⟨.notFound, "用户不存在"⟩, db, [.sqlSelectUser .pool]⟩
    | some user =>
      match getUserExchangeCredentials user with
      | .error e => ⟨.error e, db, [.sqlSelectUser .pool]⟩
      | .ok _ =>
        let (dbOrder, db1) := Database.insertOrder db req.userId req.exchange
          req.symbol req.side req.otype req.price req.amount
        match remote with
        | .ok exchangeOrder =>
          let (updated, db2) := Database.updateOrderStatus db1 dbOrder.id
            (mapExchangeStatus exchangeOrder.status)
            (some (exchangeOrder.filled.getD 0))
            exchangeOrder.feeCost exchangeOrder.feeCurrency none
          match exchangeOrder.id with
          | some eid =>
            ⟨(rowOrDbError updated).map (fun u => { u with exchangeOrderId := some eid }),
             Database.setExchangeOrderId db2 dbOrder.id eid,
             [.sqlSelectUser .pool, .txBegin, .sqlInsertOrder .pool, .exchangeCreateCall,
              .sqlUpdateOrder .pool, .sqlSetExchangeOrderId .pool, .txCommit]⟩
          | none =>
            ⟨rowOrDbError updated, db2,
             [.sqlSelectUser .pool, .txBegin, .sqlInsertOrder .pool, .exchangeCreateCall,
              .sqlUpdateOrder .pool, .txCommit]⟩
        | .error e =>
          let (_, db2) := Database.updateOrderStatus db1 dbOrder.id .failed
            (some 0) none none (some e.message)
          ⟨.error (if e.kind = .insufficientBalance then e
                   else ⟨.exchange, "订单创建失败: " ++ e.message⟩),
           db2,
           [.sqlSelectUser .pool, .txBegin, .sqlInsertOrder .pool, .exchangeCreateCall,
            .sqlUpdateOrder .pool, .txRollback]⟩

/-- JavaScript a || b for an optional number against a number: undefined
and 0 are falsy. Used for exchangeOrder.filled || order.filled. -/
def jsOrInt (a : Option Int) (b : Int) : Int :=
  match a with
  | some v => if v = 0 then b else v
  | none => b

/-- JavaScript a || b when both sides are optional numbers. -/
def jsOrOptInt (a b : Option Int) : Option Int :=
  match a with
  | some v => if v = 0 then b else some v
  | none => b

/-- JavaScript a || b when both sides are optional strings: undefined and
the empty string are falsy. -/
def jsOrOptStr (a b : Option String) : Option String :=
  match a with
  | some v => if v = "" then b else some v
  | none => b

/-- Embeds OrderService.cancelOrder (src/services/OrderService part,
lines 289-354). Only pending orders may be canceled; when a remote order
id exists the exchange cancel runs first, and whether it succeeds or
fails the local row is set to canceled — on remote failure the error
column receives the failure description. The remoteCancel argument is
the outcome of the ExchangeService.cancelOrder call. -/
def OrderService.cancelOrder (db : DBState) (remoteCancel : Except Err Unit)
    (orderId userId : Nat) : OpResult OrderRow :=
  match Database.getOrderById db orderId (some userId) with
  | none => ⟨.error ⟨.notFound, "订单不存在"⟩, db, []⟩
  | some order =>
    if order.status ≠ .pending then
      ⟨.error ⟨.validation, "只能取消待处理的订单"⟩, db, []⟩
    else
      match Database.getUserById db userId with
      | none => ⟨.error ⟨.notFound, "用户不存在"⟩, db, []⟩
      | some user =>
        match getUserExchangeCredentials user with
        | .error e => ⟨.error e, db, []⟩
        | .ok _ =>
          if order.exchangeOrderId.getD "" ≠ "" then
            match remoteCancel with
            | .ok _ =>
              let (updated, db2) := Database.updateOrderStatus db orderId .canceled
                (some order.filled) order.fee order.feeCurrency none
              ⟨rowOrDbError updated, db2, [.exchangeCancelCall, .sqlUpdateOrder .pool]⟩
            | .error e =>
              let (updated, db2) := Database.updateOrderStatus db orderId .canceled
                (some order.filled) order.fee order.feeCurrency
                (some ("取消失败: " ++ e.message))
              ⟨rowOrDbError updated, db2, [.exchangeCancelCall, .sqlUpdateOrder .pool]⟩
          else
            let (updated, db2) := Database.updateOrderStatus db orderId .canceled
              (some order.filled) order.fee order.feeCurrency none
            ⟨rowOrDbError updated, db2, [.sqlUpdateOrder .pool]⟩

/-- Embeds OrderService.getOrder (src/services/OrderService part,
lines 356-405): a pending order with a remote id is refreshed from the
exchange; any failure along that refresh (user lookup, credentials,
remote fetch) is swallowed and the stale row is returned. The
remoteFetch argument is the outcome of the ExchangeService.fetchOrder
call. -/
def OrderService.getOrder (db : DBState) (remoteFetch : Except Err ExchOrder)
    (orderId userId : Nat) : OpResult OrderRow :=
  match Database.getOrderById db orderId (some userId) with
  | none => ⟨.error ⟨.notFound, "订单不存在"⟩, db, []⟩
  | some order =>
    if order.status = .pending ∧ order.exchangeOrderId.getD "" ≠ "" then
      match Database.getUserById db userId with
      | none => ⟨.ok order, db, []⟩
      | some user =>
        match getUserExchangeCredentials user with
        | .error _ => ⟨.ok order, db, []⟩
        | .ok _ =>
          match remoteFetch with
          | .error _ => ⟨.ok order, db, [.exchangeFetchCall]⟩
          | .ok exch =>
            let (updated, db2) := Database.updateOrderStatus db orderId
              (mapExchangeStatus exch.status)
              (some (jsOrInt exch.filled order.filled))
              (jsOrOptInt exch.feeCost order.fee)
              (jsOrOptStr exch.feeCurrency order.feeCurrency) none
            ⟨rowOrDbError updated, db2, [.exchangeFetchCall, .sqlUpdateOrder .pool]⟩
    else
      ⟨.ok order, db, []⟩

/-- Embeds OrderService.syncOrderStatus (src/services/OrderService part,
lines 475-521), the bulk-reconciliation step for one order: orders without
a remote id and orders whose status is filled or canceled are skipped —
failed is not in the skip list — and errors on the refresh path are
rethrown. -/
def OrderService.syncOrderStatus (db : DBState) (remoteFetch : Except Err ExchOrder)
    (orderId : Nat) : OpResult OrderRow :=
  match Database.getOrderById db orderId none with
  | none => ⟨.error ⟨.notFound, "订单不存在"⟩, db, []⟩
  | some order =>
    if order.exchangeOrderId.getD "" = "" ∨ order.status = .filled ∨ order.status = .canceled then
      ⟨.ok order, db, []⟩
    else
      match Database.getUserById db order.userId with
      | none => ⟨.error ⟨.notFound, "用户不存在"⟩, db, []⟩
      | some user =>
        match getUserExchangeCredentials user with
        | .error e => ⟨.error e, db, []⟩
        | .ok _ =>
          match remoteFetch with
          | .error e => ⟨.error e, db, [.exchangeFetchCall]⟩
          | .ok exch =>
            let (updated, db2) := Database.updateOrderStatus db orderId
              (mapExchangeStatus exch.status)
              (some (jsOrInt exch.filled order.filled))
              (jsOrOptInt exch.feeCost order.fee)
              (jsOrOptStr exch.feeCurrency order.feeCurrency) none
            ⟨rowOrDbError updated, db2, [.exchangeFetchCall, .sqlUpdateOrder .pool]⟩

/-- The admission info returned to an admitted caller
(RateLimitInfo in the rate-limit middleware source). -/
structure RateLimitInfo where
  limit : Nat
  remaining : Int
  reset : Int
  deriving DecidableEq, Repr

/-- The details carried by a RateLimitError raised on rejection. -/
structure RateLimitRejection where
  limit : Nat
  current : Nat
  retryAfter : Int
  deriving DecidableEq, Repr

/-- Embeds the decision part of RateLimitService.checkLimit
(rate-limit middleware, lines 161-234) for one request: currentCount is
the value the counter store returned for this request's increment, ttl
the remaining window. Admission is evaluated after the increment; a
count beyond maxRequests is rejected with retryAfter at least 1. -/
def RateLimitService.checkLimit (maxRequests : Nat) (currentCount : Nat)
    (ttl now windowMs : Int) : Except RateLimitRejection RateLimitInfo :=
  let remaining : Int := max 0 ((maxRequests : Int) - (currentCount : Int))
  if currentCount > maxRequests then
    .error { limit := maxRequests, current := currentCount, retryAfter := max 1 ttl }
  else
    .ok { limit := maxRequests, remaining := remaining, reset := now + windowMs }

/-- The leading digits of a string read as a number, 0 when there are
none: JavaScript parseInt(s) || 0 on the inputs this service feeds it. -/
def digitsToNat : List Char → Nat → Nat
  | [], acc => acc
  | c :: cs, acc => digitsToNat cs (acc * 10 + (c.toNat - 48))

/-- JavaScript parseInt(s) || 0 as used in the rate-limit key
construction. -/
def parseIntOr0 (s : String) : Nat :=
  let ds := s.toList.takeWhile Char.isDigit
  if ds.isEmpty then 0 else digitsToNat ds 0

/-- Embeds CacheService.getRateLimitKey (src/services/CacheService part,
lines 632-634). -/
def CacheService.getRateLimitKey (userId : Nat) (endpoint : String) : String :=
  "ratelimit:" ++ toString userId ++ ":" ++ endpoint

/-- Embeds RateLimitService.getRateLimitKey (rate-limit middleware,
lines 103-105): the identifier — a user id string for authenticated
callers, a source address for unauthenticated ones — is forced through
parseInt(identifier) || 0 before entering the key. -/
def RateLimitService.getRateLimitKey (identifier endpoint : String) : String :=
  CacheService.getRateLimitKey (parseIntOr0 identifier) endpoint

/-- Embeds RateLimitService.getGlobalRateLimitKey (lines 107-109): the
global per-source counter key keeps the full address. -/
def RateLimitService.getGlobalRateLimitKey (ip : String) : String :=
  "ratelimit:global:" ++ ip

/-- The authentication headers of a request (x-api-key, x-timestamp,
x-signature), each possibly absent. -/
structure AuthHeaders where
  apiKey : Option String
  timestamp : Option String
  signature : Option String
  deriving DecidableEq, Repr

/-- A request envelope as seen by the auth middleware: headers, method,
literal url path, and the serialized body (empty string when absent). -/
structure RequestEnv where
  headers : AuthHeaders
  method : String
  path : String
  body : String
  deriving DecidableEq, Repr

/-- The context attached to the request on success:
userId, user and permissions. -/
structure AuthData where
  userId : Nat
  user : UserRow
  permissions : List String
  deriving DecidableEq, Repr

/-- JavaScript parseInt on a timestamp header: an optional sign followed
by leading digits; none when no digit is found (NaN). -/
def jsParseInt (s : String) : Option Int :=
  match s.toList with
  | [] => none
  | c :: rest =>
    if c == '-' then
      let ds := rest.takeWhile Char.isDigit
      if ds.isEmpty then none else some (-(digitsToNat ds 0 : Int))
    else
      let ds := (c :: rest).takeWhile Char.isDigit
      if ds.isEmpty then none else some ((digitsToNat ds 0 : Int))

/-- Embeds AuthService.authenticateRequest (auth middleware, lines 31-110)
together with its private getUserByApiKey (lines 112-132). The cache
argument is the content of the user cache entry for the presented api
key; the db lookup applies the active-status filter of
Database.getUserByApiKey. hmacSha256 is the signature primitive,
abstracted as a function of the secret and the message
timestamp ++ method ++ path ++ body. -/
def AuthService.authenticateRequest (env : RequestEnv) (now : Int)
    (cache : Option UserRow) (db : DBState)
    (hmacSha256 : String → String → String) : Except Err AuthData :=
  match env.headers.apiKey, env.headers.timestamp, env.headers.signature with
  | some apiKey, some timestamp, some signature =>
    if apiKey = "" ∨ timestamp = "" ∨ signature = "" then
      .error ⟨.authentication, "缺少认证头信息"⟩
    else
      match jsParseInt timestamp with
      | none => .error ⟨.authentication, "无效的时间戳格式"⟩
      | some requestTime =>
        if (now - requestTime).natAbs > 300000 then
          .error ⟨.authentication, "请求时间戳超出有效窗口"⟩
        else
          match (match cache with
                 | some u => some u
                 | none => Database.getUserByApiKey db apiKey) with
          | none => .error ⟨.authentication, "无效的API密钥"⟩
          | some user =>
            if user.status ≠ "active" then
              .error ⟨.authentication, "用户账户已被禁用"⟩
            else
              let message := timestamp ++ env.method ++ env.path ++ env.body
              if hmacSha256 user.apiSecret message = signature then
                .ok ⟨user.id, user, user.permissions⟩
              else
                .error ⟨.authentication, "签名验证失败"⟩
  | _, _, _ => .error ⟨.authentication, "缺少认证头信息"⟩

/-- Embeds AuthService.checkPermission (auth middleware, lines 173-178):
admin subsumes every permission. -/
def AuthService.checkPermission (userPermissions : List String)
    (requiredPermission : String) : Bool :=
  userPermissions.contains requiredPermission || userPermissions.contains "admin"

/-- A transient network failure message; retryable under the classifier. -/
def netErr : Err := ⟨.exchange, "Network timeout"⟩

/-- An operation failing twice with a transient error, then succeeding. -/
def opThirdTry : Nat → Except Err Nat :=
  fun n => if n < 3 then .error netErr else .ok 42

/-- An operation failing on every attempt with a transient error. -/
def opAlwaysFail : Nat → Except Err Nat :=
  fun _ => .error netErr

/-- The raw error an exchange raises on insufficient funds. -/
def insufficientRawErr : Err := ⟨.exchange, "insufficient balance"⟩

/-- An active user row carrying the empty api key and exchange
credentials; the row OrderService.createOrder's lookup actually finds. -/
def emptyKeyUser : UserRow :=
  { id := 1, apiKey := "", apiSecret := "sec", exchange := "binance",
    exchangeApiKey := some "ek", exchangeSecret := some "es",
    permissions := ["trade"], status := "active" }

/-- An active user row with an ordinary api key and credentials. -/
def normalUser : UserRow :=
  { id := 1, apiKey := "key1", apiSecret := "sec", exchange := "binance",
    exchangeApiKey := some "ek", exchangeSecret := some "es",
    permissions := ["trade"], status := "active" }

/-- A store containing only the empty-api-key user. -/
def createDb : DBState := { users := [emptyKeyUser], orders := [], nextOrderId := 1 }

/-- A store containing only an ordinary user (no empty api key). -/
def createDb2 : DBState := { users := [normalUser], orders := [], nextOrderId := 1 }

/-- A well-formed limit buy request. -/
def createReq : CreateOrderRequest :=
  { userId := 1, exchange := "binance", symbol := "BTC/USDT", side := "buy",
    otype := "limit", amount := 1, price := some 50000 }

/-- The venues configured in this deployment. -/
def supportedExchanges : List String := ["binance", "okx"]

/-- A successful remote creation acknowledged as closed. -/
def okExch : ExchOrder :=
  { id := some "E1", status := "closed", filled := some 1, feeCost := some 1,
    feeCurrency := some "USDT" }

/-- A pending order with a remote id, owned by user 1. -/
def pendingOrder : OrderRow :=
  { id := 10, userId := 1, exchange := "binance", exchangeOrderId := some "E1",
    symbol := "BTC/USDT", side := "buy", otype := "limit", price := some 50000,
    amount := 1, filled := 0, status := .pending, fee := none, feeCurrency := none,
    error := none }

/-- A filled order, owned by user 1. -/
def filledOrder : OrderRow :=
  { id := 11, userId := 1, exchange := "binance", exchangeOrderId := some "E2",
    symbol := "BTC/USDT", side := "buy", otype := "limit", price := some 50000,
    amount := 1, filled := 1, status := .filled, fee := some 1,
    feeCurrency := some "USDT", error := none }

/-- A failed order that still carries a remote id, owned by user 1. -/
def failedRemoteOrder : OrderRow :=
  { id := 1, userId := 1, exchange := "binance", exchangeOrderId := some "E1",
    symbol := "BTC/USDT", side := "buy", otype := "limit", price := some 50000,
    amount := 1, filled := 0, status := .failed, fee := none, feeCurrency := none,
    error := some "boom" }

/-- A store with user 1 and a pending and a filled order. -/
def cancelDb : DBState :=
  { users := [normalUser], orders := [pendingOrder, filledOrder], nextOrderId := 12 }

/-- A store with user 1 and the failed order with a remote id. -/
def syncDb : DBState :=
  { users := [normalUser], orders := [failedRemoteOrder], nextOrderId := 2 }

/-- A remote fetch reporting the order as open. -/
def exchOpen : ExchOrder :=
  { id := some "E1", status := "open", filled := some 0, feeCost := none,
    feeCurrency := none }

/-- A suspended user row with exchange credentials. -/
def suspendedUser : UserRow :=
  { id := 2, apiKey := "sk", apiSecret := "ss", exchange := "binance",
    exchangeApiKey := some "ek", exchangeSecret := some "es",
    permissions := ["trade"], status := "suspended" }

/-- A concrete stand-in for the HMAC-SHA256 primitive. -/
def hmacModel : String → String → String :=
  fun secret msg => secret ++ "|" ++ msg

/-- A request signed correctly under the suspended user's secret. -/
def suspendedEnv : RequestEnv :=
  { headers :=
      { apiKey := some "sk", timestamp := some "1000",
        signature := some (hmacModel "ss" ("1000" ++ "GET" ++ "/api/v1/account/balance" ++ "")) },
    method := "GET", path := "/api/v1/account/balance", body := "" }

/-- C5: under the retry policy (maxAttempts 3), if the failures are
retryable and attempt k ≤ 3 succeeds, the successful result is returned
after exactly k attempts, the delay before retry attempt j (2 ≤ j ≤ k,
index j-2 in the list) being baseDelay * 2 ^ (j-2); if all 3 attempts
fail retryably, the error of the last attempt is propagated after 3
attempts with the same two backoff delays. -/
theorem retryPolicy_spec {α : Type} (op : Nat → Except Err α) (baseDelay : Nat) :
    (∀ k (a : α), 1 ≤ k → k ≤ 3 →
      (∀ j, 1 ≤ j → j < k → ∃ e, op j = .error e ∧ isNonRetryableError e = false) →
      op k = .ok a →
      retryOperation op 3 baseDelay =
        ⟨.ok a, k, (List.range (k - 1)).map (fun i => baseDelay * 2 ^ i)⟩) ∧
    (∀ e1 e2 e3,
      op 1 = .error e1 → isNonRetryableError e1 = false →
      op 2 = .error e2 → isNonRetryableError e2 = false →
      op 3 = .error e3 →
      retryOperation op 3 baseDelay =
        ⟨.error e3, 3, [baseDelay * 2 ^ 0, baseDelay * 2 ^ 1]⟩) := by
  constructor
  · intro k a hk1 hk3 hfail hsucc
    interval_cases k
    · simp [retryOperation, retryGo, hsucc]
    · obtain ⟨e1, he1, hr1⟩ := hfail 1 (by norm_num) (by norm_num)
      simp [retryOperation, retryGo, he1, hr1, hsucc, List.range_succ]
    · obtain ⟨e1, he1, hr1⟩ := hfail 1 (by norm_num) (by norm_num)
      obtain ⟨e2, he2, hr2⟩ := hfail 2 (by norm_num) (by norm_num)
      simp [retryOperation, retryGo, he1, hr1, he2, hr2, hsucc, List.range_succ]
  · intro e1 e2 e3 he1 hr1 he2 hr2 he3
    cases hr3 : isNonRetryableError e3 <;>
      simp [retryOperation, retryGo, he1, hr1, he2, hr2, he3, hr3]

/-- Witness for C5 at concrete operations: two transient failures then
success gives the result after 3 attempts with delays 1000 and 2000, and
three failures propagate the last error with the same attempt count. -/
theorem retryPolicy_spec_witness :
    retryOperation opThirdTry 3 1000 =
      ⟨.ok 42, 3, (List.range 2).map (fun i => 1000 * 2 ^ i)⟩ ∧
    retryOperation opAlwaysFail 3 1000 = ⟨.error netErr, 3, [1000 * 2 ^ 0, 1000 * 2 ^ 1]⟩ := by
  constructor
  · have hfail : ∀ j, 1 ≤ j → j < 3 →
        ∃ e, opThirdTry j = .error e ∧ isNonRetryableError e = false := by
      intro j h1 h2
      interval_cases j
      · exact ⟨netErr, rfl, by decide⟩
      · exact ⟨netErr, rfl, by decide⟩
    exact (retryPolicy_spec opThirdTry 1000).1 3 42 (by norm_num) (by norm_num) hfail rfl
  · exact (retryPolicy_spec opAlwaysFail 1000).2 netErr netErr netErr rfl (by decide) rfl
      (by decide) rfl

/-- C4: evaluation of the code at the failing input. An exchange whose
createOrder raises "insufficient balance" on every attempt: the inner
catch replaces the message by the default InsufficientBalanceError text,
the classifier finds none of its substrings in that text, and the
operation is retried — the caller receives InsufficientBalanceError only
after 3 attempts and two backoff delays, not after a single attempt. -/
theorem exchange_createOrder_insufficient_balance_is_retried :
    ExchangeService.createOrder (fun _ => .error insufficientRawErr) =
      ⟨.error ⟨.insufficientBalance, "余额不足"⟩, 3, [1000, 2000]⟩ := by
  have hw : wrapCreateError insufficientRawErr = ⟨.insufficientBalance, "余额不足"⟩ := by
    decide
  have hnr : isNonRetryableError ⟨.insufficientBalance, "余额不足"⟩ = false := by decide
  simp [ExchangeService.createOrder, retryOperation, retryGo, hw, hnr]

/-- A row untouched by an update keyed on a different id stays in the
mapped list unchanged. -/
theorem mem_update_map_of_ne (l : List OrderRow) (oid : Nat) (g : OrderRow → OrderRow)
    (r : OrderRow) (hr : r ∈ l) (hne : r.id ≠ oid) :
    r ∈ l.map (fun x => if x.id = oid then g x else x) := by
  refine List.mem_map.mpr ⟨r, hr, ?_⟩
  simp [hne]

/-- Finding by id commutes with any id-preserving row transformation. -/
theorem find?_map_id_pres (l : List OrderRow) (oid : Nat) (f : OrderRow → OrderRow)
    (hf : ∀ r, (f r).id = r.id) :
    (l.map f).find? (fun r => r.id == oid) = (l.find? (fun r => r.id == oid)).map f := by
  induction l with
  | nil => simp
  | cons a l ih =>
    by_cases ha : a.id = oid
    · simp [List.find?_cons, hf, ha]
    · simp [List.find?_cons, hf, ha, ih]

/-- The two components of Database.updateOrderStatus when the store's
first row with the target id is known: the RETURNING row is that row
updated, and it is a member of the new store. -/
theorem updateOrderStatus_find (db : DBState) (oid : Nat) (st : OrderStatus)
    (filled fee : Option Int) (feeCur err : Option String) (order : OrderRow)
    (hfind : db.orders.find? (fun r => r.id == oid) = some order) :
    (Database.updateOrderStatus db oid st filled fee feeCur err).1 =
      some (updateOrderStatusRow order st filled fee feeCur err) ∧
    updateOrderStatusRow order st filled fee feeCur err ∈
      (Database.updateOrderStatus db oid st filled fee feeCur err).2.orders := by
  have hoid : order.id = oid := by simpa using List.find?_some hfind
  have hmem := List.mem_of_find?_eq_some hfind
  have hcomm := find?_map_id_pres db.orders oid
    (fun x => if x.id = oid then updateOrderStatusRow x st filled fee feeCur err else x)
    (by
      intro r
      by_cases h : r.id = oid <;> simp [h, updateOrderStatusRow])
  constructor
  · simp only [Database.updateOrderStatus]
    rw [hcomm, hfind]
    simp [hoid]
  · simp only [Database.updateOrderStatus]
    exact List.mem_map.mpr ⟨order, hmem, by simp [hoid]⟩

/-- When order ids are unique, the row found by id and owner is also the
row found by id alone. -/
theorem find?_id_of_find?_owned (l : List OrderRow) (oid uid : Nat) (order : OrderRow)
    (hnodup : (l.map OrderRow.id).Nodup)
    (h : l.find? (fun r => r.id == oid && r.userId == uid) = some order) :
    l.find? (fun r => r.id == oid) = some order := by
  induction l with
  | nil => simp at h
  | cons a l ih =>
    rw [List.map_cons, List.nodup_cons] at hnodup
    by_cases ha : a.id = oid
    · by_cases hu : a.userId = uid
      · rw [List.find?_cons_of_pos _ (by simp [ha, hu])] at h
        rw [List.find?_cons_of_pos _ (by simp [ha])]
        exact h
      · rw [List.find?_cons_of_neg _ (by simp [hu])] at h
        have hmem := List.mem_of_find?_eq_some h
        have hpred := List.find?_some h
        have : order.id = oid := by
          have := (Bool.and_eq_true _ _).mp hpred
          simpa using this.1
        exact absurd (List.mem_map.mpr ⟨order, hmem, by rw [this, ha]⟩) hnodup.1
    · rw [List.find?_cons_of_neg _ (by simp [ha])] at h
      rw [List.find?_cons_of_neg _ (by simp [ha])]
      exact ih hnodup.2 h

/-- C2: when the pending row was inserted and the remote exchange call
fails, the caller receives an error (InsufficientBalanceError passes
through, anything else is wrapped as ExchangeError) and the local order
row is durably recorded with status failed and the failure message in
its error column — the pending insert and the failed update both went
through the pool and survive the transaction client's ROLLBACK. -/
theorem createOrder_remote_failure_durable
    (supported : List String) (db : DBState) (req : CreateOrderRequest) (e : Err)
    (user : UserRow) (creds : String × String)
    (hval : validateOrderParams supported req = none)
    (huser : Database.getUserByApiKey db "" = some user)
    (hcreds : getUserExchangeCredentials user = .ok creds) :
    (OrderService.createOrder supported db (.error e) req).result =
      .error (if e.kind = .insufficientBalance then e
              else ⟨.exchange, "订单创建失败: " ++ e.message⟩) ∧
    ∃ r ∈ (OrderService.createOrder supported db (.error e) req).db.orders,
      r.id = db.nextOrderId ∧ r.status = .failed ∧ r.error = some e.message := by
  constructor
  · simp [OrderService.createOrder, hval, huser, hcreds, Database.insertOrder,
      Database.updateOrderStatus]
  · refine ⟨updateOrderStatusRow
      { id := db.nextOrderId, userId := req.userId, exchange := req.exchange,
        exchangeOrderId := none, symbol := req.symbol, side := req.side,
        otype := req.otype, price := req.price, amount := req.amount, filled := 0,
        status := .pending, fee := none, feeCurrency := none, error := none }
      .failed (some 0) none none (some e.message), ?_, rfl, rfl, rfl⟩
    simp only [OrderService.createOrder, hval, huser, hcreds, Database.insertOrder,
      Database.updateOrderStatus]
    refine List.mem_map.mpr ⟨_, List.mem_append_right _ (List.mem_singleton.mpr rfl), ?_⟩
    simp

/-- Witness for C2 at a concrete request whose remote call raises a
network error: the caller receives the wrapped ExchangeError and the
store holds a failed row with the message. -/
theorem createOrder_remote_failure_durable_witness :
    (OrderService.createOrder supportedExchanges createDb (.error netErr) createReq).result =
      .error (if netErr.kind = .insufficientBalance then netErr
              else ⟨.exchange, "订单创建失败: " ++ netErr.message⟩) ∧
    ∃ r ∈ (OrderService.createOrder supportedExchanges createDb
        (.error netErr) createReq).db.orders,
      r.id = createDb.nextOrderId ∧ r.status = .failed ∧ r.error = some netErr.message :=
  createOrder_remote_failure_durable supportedExchanges createDb createReq netErr
    emptyKeyUser ("ek", "es") (by decide) (by decide) rfl

/-- C1 counterexample: on a concrete create request that passes
validation, the ExchangeService.createOrder call event lies strictly
between the BEGIN and the COMMIT issued by database.transaction — the
remote call is not performed outside the transaction boundary, refuting
the claim as stated. -/
theorem createOrder_exchange_call_inside_txn :
    insideTxnBoundary
      (OrderService.createOrder supportedExchanges createDb (.ok okExch) createReq).trace
      .exchangeCreateCall := by
  decide

/-- C1 amended: for every create request passing validation and user
resolution, the pending-row insert, the exchange call and the status
update all occur inside the BEGIN..COMMIT/ROLLBACK span of
database.transaction, while every SQL statement of the flow is issued on
the pool connection rather than the transaction client — so the
transaction wrapper spans the whole flow yet covers no statement. -/
theorem createOrder_txn_wrapper_amended
    (supported : List String) (db : DBState) (remote : Except Err ExchOrder)
    (req : CreateOrderRequest) (user : UserRow) (creds : String × String)
    (hval : validateOrderParams supported req = none)
    (huser : Database.getUserByApiKey db "" = some user)
    (hcreds : getUserExchangeCredentials user = .ok creds) :
    insideTxnBoundary (OrderService.createOrder supported db remote req).trace
      (.sqlInsertOrder .pool) ∧
    insideTxnBoundary (OrderService.createOrder supported db remote req).trace
      .exchangeCreateCall ∧
    insideTxnBoundary (OrderService.createOrder supported db remote req).trace
      (.sqlUpdateOrder .pool) ∧
    ∀ ev ∈ (OrderService.createOrder supported db remote req).trace,
      sqlConn ev = none ∨ sqlConn ev = some .pool := by
  cases remote with
  | error e =>
    have htr : (OrderService.createOrder supported db (.error e) req).trace =
        [.sqlSelectUser .pool, .txBegin, .sqlInsertOrder .pool, .exchangeCreateCall,
         .sqlUpdateOrder .pool, .txRollback] := by
      simp [OrderService.createOrder, hval, huser, hcreds, Database.insertOrder,
        Database.updateOrderStatus]
    rw [htr]
    refine ⟨by decide, by decide, by decide, by decide⟩
  | ok exch =>
    cases hid : exch.id with
    | some eid =>
      have htr : (OrderService.createOrder supported db (.ok exch) req).trace =
          [.sqlSelectUser .pool, .txBegin, .sqlInsertOrder .pool, .exchangeCreateCall,
           .sqlUpdateOrder .pool, .sqlSetExchangeOrderId .pool, .txCommit] := by
        simp [OrderService.createOrder, hval, huser, hcreds, Database.insertOrder,
          Database.updateOrderStatus, hid]
      rw [htr]
      refine ⟨by decide, by decide, by decide, by decide⟩
    | none =>
      have htr : (OrderService.createOrder supported db (.ok exch) req).trace =
          [.sqlSelectUser .pool, .txBegin, .sqlInsertOrder .pool, .exchangeCreateCall,
           .sqlUpdateOrder .pool, .txCommit] := by
        simp [OrderService.createOrder, hval, huser, hcreds, Database.insertOrder,
          Database.updateOrderStatus, hid]
      rw [htr]
      refine ⟨by decide, by decide, by decide, by decide⟩

/-- Witness for the amended C1 at a concrete request: insert, exchange
call and update all sit inside the transaction span. -/
theorem createOrder_txn_wrapper_amended_witness :
    insideTxnBoundary
      (OrderService.createOrder supportedExchanges createDb (.ok okExch) createReq).trace
      (.sqlInsertOrder .pool) ∧
    insideTxnBoundary
      (OrderService.createOrder supportedExchanges createDb (.ok okExch) createReq).trace
      (.sqlUpdateOrder .pool) := by
  have h := createOrder_txn_wrapper_amended supportedExchanges createDb (.ok okExch)
    createReq emptyKeyUser ("ek", "es") (by decide) (by decide) rfl
  exact ⟨h.1, h.2.2.1⟩

/-- C10: when no active user row carries the empty api key, every create
request that passes parameter validation fails with NotFoundError before
any order row is inserted, whatever its userId — the lookup uses the
empty string, not the request's userId. -/
theorem createOrder_empty_apikey_lookup
    (supported : List String) (db : DBState) (remote : Except Err ExchOrder)
    (req : CreateOrderRequest)
    (hval : validateOrderParams supported req = none)
    (hnone : ∀ u ∈ db.users, ¬(u.apiKey = "" ∧ u.status = "active")) :
    OrderService.createOrder supported db remote req =
      ⟨.error ⟨.notFound, "用户不存在"⟩, db, [.sqlSelectUser .pool]⟩ := by
  have h : Database.getUserByApiKey db "" = none := by
    unfold Database.getUserByApiKey
    rw [List.find?_eq_none]
    intro u hu
    have := hnone u hu
    simp_all
  simp [OrderService.createOrder, hval, h]

/-- Witness for C10: a store whose only user has api key key1 and a
request with a matching userId still gets NotFoundError and no insert. -/
theorem createOrder_empty_apikey_lookup_witness :
    OrderService.createOrder supportedExchanges createDb2 (.ok okExch) createReq =
      ⟨.error ⟨.notFound, "用户不存在"⟩, createDb2, [.sqlSelectUser .pool]⟩ :=
  createOrder_empty_apikey_lookup supportedExchanges createDb2 (.ok okExch) createReq
    (by decide) (by decide)

/-- C6: a pending order is always locally canceled — on remote-cancel
failure the row still becomes canceled and the error column records the
failure description — while a non-pending order makes cancelOrder fail
with ValidationError and leaves the store unchanged. -/
theorem cancelOrder_spec
    (db : DBState) (remote : Except Err Unit) (orderId userId : Nat)
    (order : OrderRow) (user : UserRow) (creds : String × String)
    (hnodup : (db.orders.map OrderRow.id).Nodup)
    (horder : Database.getOrderById db orderId (some userId) = some order)
    (huser : Database.getUserById db userId = some user)
    (hcreds : getUserExchangeCredentials user = .ok creds) :
    (order.status = .pending →
      ∃ r, (OrderService.cancelOrder db remote orderId userId).result = .ok r ∧
        r.status = .canceled ∧
        r ∈ (OrderService.cancelOrder db remote orderId userId).db.orders ∧
        (∀ e, remote = .error e → order.exchangeOrderId.getD "" ≠ "" →
          r.error = some ("取消失败: " ++ e.message))) ∧
    (order.status ≠ .pending →
      OrderService.cancelOrder db remote orderId userId =
        ⟨.error ⟨.validation, "只能取消待处理的订单"⟩, db, []⟩) := by
  have horder' : db.orders.find? (fun r => r.id == orderId && r.userId == userId) =
      some order := by
    simpa [Database.getOrderById] using horder
  have hfind : db.orders.find? (fun r => r.id == orderId) = some order :=
    find?_id_of_find?_owned db.orders orderId userId order hnodup horder'
  constructor
  · intro hpending
    by_cases hid : order.exchangeOrderId.getD "" = ""
    · obtain ⟨hupd1, hupd2⟩ := updateOrderStatus_find db orderId .canceled
        (some order.filled) order.fee order.feeCurrency none order hfind
      have hrun : OrderService.cancelOrder db remote orderId userId =
          ⟨rowOrDbError (Database.updateOrderStatus db orderId .canceled
              (some order.filled) order.fee order.feeCurrency none).1,
           (Database.updateOrderStatus db orderId .canceled
              (some order.filled) order.fee order.feeCurrency none).2,
           [.sqlUpdateOrder .pool]⟩ := by
        simp [OrderService.cancelOrder, horder, hpending, huser, hcreds, hid]
      refine ⟨updateOrderStatusRow order .canceled (some order.filled) order.fee
          order.feeCurrency none, ?_, rfl, ?_, ?_⟩
      · rw [hrun, hupd1]
        rfl
      · rw [hrun]
        exact hupd2
      · intro e _ hne2
        exact absurd hid hne2
    · cases remote with
      | ok u =>
        obtain ⟨hupd1, hupd2⟩ := updateOrderStatus_find db orderId .canceled
          (some order.filled) order.fee order.feeCurrency none order hfind
        have hrun : OrderService.cancelOrder db (.ok u) orderId userId =
            ⟨rowOrDbError (Database.updateOrderStatus db orderId .canceled
                (some order.filled) order.fee order.feeCurrency none).1,
             (Database.updateOrderStatus db orderId .canceled
                (some order.filled) order.fee order.feeCurrency none).2,
             [.exchangeCancelCall, .sqlUpdateOrder .pool]⟩ := by
          simp [OrderService.cancelOrder, horder, hpending, huser, hcreds, hid]
        refine ⟨updateOrderStatusRow order .canceled (some order.filled) order.fee
            order.feeCurrency none, ?_, rfl, ?_, ?_⟩
        · rw [hrun, hupd1]
          rfl
        · rw [hrun]
          exact hupd2
        · intro e he
          exact absurd he (by simp)
      | error e0 =>
        obtain ⟨hupd1, hupd2⟩ := updateOrderStatus_find db orderId .canceled
          (some order.filled) order.fee order.feeCurrency
          (some ("取消失败: " ++ e0.message)) order hfind
        have hrun : OrderService.cancelOrder db (.error e0) orderId userId =
            ⟨rowOrDbError (Database.updateOrderStatus db orderId .canceled
                (some order.filled) order.fee order.feeCurrency
                (some ("取消失败: " ++ e0.message))).1,
             (Database.updateOrderStatus db orderId .canceled
                (some order.filled) order.fee order.feeCurrency
                (some ("取消失败: " ++ e0.message))).2,
             [.exchangeCancelCall, .sqlUpdateOrder .pool]⟩ := by
          simp [OrderService.cancelOrder, horder, hpending, huser, hcreds, hid]
        refine ⟨updateOrderStatusRow order .canceled (some order.filled) order.fee
            order.feeCurrency (some ("取消失败: " ++ e0.message)), ?_, rfl, ?_, ?_⟩
        · rw [hrun, hupd1]
          rfl
        · rw [hrun]
          exact hupd2
        · intro e he _
          have he2 : e0 = e := by injection he
          rw [← he2]
          rfl
  · intro hnp
    simp [OrderService.cancelOrder, horder, hnp]

/-- Witness for C6: canceling the concrete pending order under a failing
remote cancel yields a canceled result, and canceling the filled order
fails with ValidationError leaving the store unchanged. -/
theorem cancelOrder_spec_witness :
    (OrderService.cancelOrder cancelDb (.error netErr) 10 1).result.map OrderRow.status =
      .ok OrderStatus.canceled ∧
    OrderService.cancelOrder cancelDb (.ok ()) 11 1 =
      ⟨.error ⟨.validation, "只能取消待处理的订单"⟩, cancelDb, []⟩ := by
  constructor
  · obtain ⟨r, hr, hst, _, _⟩ := (cancelOrder_spec cancelDb (.error netErr) 10 1
      pendingOrder normalUser ("ek", "es") (by decide) (by decide) (by decide) rfl).1 rfl
    rw [hr]
    simp [Except.map, hst]
  · exact (cancelOrder_spec cancelDb (.ok ()) 11 1 filledOrder normalUser ("ek", "es")
      (by decide) (by decide) (by decide) rfl).2 (by decide)

/-- C7 counterexample: the bulk sync skips only filled and canceled, not
failed — run on a concrete failed order with a remote id whose venue now
reports open, the stored status moves from the terminal failed back to
pending. -/
theorem syncOrderStatus_escapes_failed :
    failedRemoteOrder.status = .failed ∧
    ((OrderService.syncOrderStatus syncDb (.ok exchOpen) 1).db.orders.find?
      (fun r => r.id == 1)).map OrderRow.status = some OrderStatus.pending := by
  decide

/-- C7 amended: terminal statuses are preserved by cancel (ValidationError,
store unchanged), by the read path (any non-pending status is returned
unchanged), and by the bulk sync for filled and canceled; order creation
never touches a pre-existing row with a different id. Only
syncOrderStatus on a failed order with a remote id can leave a terminal
status. -/
theorem lifecycle_terminal_amended :
    (∀ (db : DBState) (remote : Except Err Unit) (oid uid : Nat) (order : OrderRow),
      Database.getOrderById db oid (some uid) = some order → order.status ≠ .pending →
      OrderService.cancelOrder db remote oid uid =
        ⟨.error ⟨.validation, "只能取消待处理的订单"⟩, db, []⟩) ∧
    (∀ (db : DBState) (remote : Except Err ExchOrder) (oid uid : Nat) (order : OrderRow),
      Database.getOrderById db oid (some uid) = some order →
      order.status = .filled ∨ order.status = .canceled ∨ order.status = .failed →
      OrderService.getOrder db remote oid uid = ⟨.ok order, db, []⟩) ∧
    (∀ (db : DBState) (remote : Except Err ExchOrder) (oid : Nat) (order : OrderRow),
      Database.getOrderById db oid none = some order →
      order.status = .filled ∨ order.status = .canceled →
      OrderService.syncOrderStatus db remote oid = ⟨.ok order, db, []⟩) ∧
    (∀ (supported : List String) (db : DBState) (remote : Except Err ExchOrder)
      (req : CreateOrderRequest) (r : OrderRow),
      r ∈ db.orders → r.id ≠ db.nextOrderId →
      r ∈ (OrderService.createOrder supported db remote req).db.orders) := by
  refine ⟨?_, ?_, ?_, ?_⟩
  · intro db remote oid uid order h1 h2
    simp [OrderService.cancelOrder, h1, h2]
  · intro db remote oid uid order h1 h2
    have hnp : ¬(order.status = .pending ∧ order.exchangeOrderId.getD "" ≠ "") := by
      rcases h2 with h | h | h <;> simp [h]
    simp [OrderService.getOrder, h1, hnp]
  · intro db remote oid order h1 h2
    rcases h2 with h | h <;> simp [OrderService.syncOrderStatus, h1, h]
  · intro supported db remote req r hr hne
    simp only [OrderService.createOrder, Database.insertOrder,
      Database.updateOrderStatus, Database.setExchangeOrderId]
    split
    · exact hr
    · split
      · exact hr
      · split
        · exact hr
        · split
          · split
            · refine mem_update_map_of_ne _ _ _ r ?_ hne
              exact mem_update_map_of_ne _ _ _ r (List.mem_append_left _ hr) hne
            · exact mem_update_map_of_ne _ _ _ r (List.mem_append_left _ hr) hne
          · exact mem_update_map_of_ne _ _ _ r (List.mem_append_left _ hr) hne

/-- Witness for the amended C7 at concrete stores: cancel and read leave
the failed order alone, the sync skips a filled order, and creation keeps
a pre-existing row. -/
theorem lifecycle_terminal_amended_witness :
    OrderService.cancelOrder syncDb (.ok ()) 1 1 =
      ⟨.error ⟨.validation, "只能取消待处理的订单"⟩, syncDb, []⟩ ∧
    OrderService.getOrder syncDb (.ok exchOpen) 1 1 = ⟨.ok failedRemoteOrder, syncDb, []⟩ ∧
    OrderService.syncOrderStatus cancelDb (.ok exchOpen) 11 = ⟨.ok filledOrder, cancelDb, []⟩ ∧
    pendingOrder ∈
      (OrderService.createOrder supportedExchanges cancelDb (.ok okExch) createReq).db.orders := by
  obtain ⟨h1, h2, h3, h4⟩ := lifecycle_terminal_amended
  exact ⟨h1 syncDb (.ok ()) 1 1 failedRemoteOrder (by decide) (by decide),
    h2 syncDb (.ok exchOpen) 1 1 failedRemoteOrder (by decide) (by decide),
    h3 cancelDb (.ok exchOpen) 11 filledOrder (by decide) (by decide),
    h4 supportedExchanges cancelDb (.ok okExch) createReq pendingOrder (by decide) (by decide)⟩

/-- A request is admitted exactly when its post-increment count is within
the limit. -/
theorem checkLimit_isOk_iff (L c : Nat) (ttl now w : Int) :
    (RateLimitService.checkLimit L c ttl now w).isOk = true ↔ c ≤ L := by
  unfold RateLimitService.checkLimit
  by_cases h : c > L
  · simp [if_pos h, Except.isOk, Except.toBool]
    omega
  · simp [if_neg h, Except.isOk, Except.toBool]
    omega

/-- C3: with an ideally behaving counter (increments 1..N) over one scope
with limit L < N, exactly the first L requests are admitted; every later
request fails with RateLimitError carrying the limit, its own count, and
a retryAfter of at least 1. -/
theorem rateLimit_exact_admission (L N : Nat) (ttl now windowMs : Int) (hLN : L < N) :
    ((Finset.range N).filter
      (fun i => (RateLimitService.checkLimit L (i + 1) ttl now windowMs).isOk = true)).card
      = L ∧
    ∀ i, 1 ≤ i → i ≤ N →
      (i ≤ L → (RateLimitService.checkLimit L i ttl now windowMs).isOk = true) ∧
      (L < i → RateLimitService.checkLimit L i ttl now windowMs =
          .error ⟨L, i, max 1 ttl⟩ ∧ (1 : Int) ≤ max 1 ttl) := by
  constructor
  · have hset : (Finset.range N).filter
        (fun i => (RateLimitService.checkLimit L (i + 1) ttl now windowMs).isOk = true) =
        Finset.range L := by
      ext i
      simp only [Finset.mem_filter, Finset.mem_range, checkLimit_isOk_iff]
      omega
    rw [hset, Finset.card_range]
  · intro i h1 h2
    constructor
    · intro hle
      exact (checkLimit_isOk_iff L i ttl now windowMs).mpr hle
    · intro hlt
      refine ⟨?_, le_max_left 1 ttl⟩
      simp [RateLimitService.checkLimit, hlt]

/-- Witness for C3 with limit 2 over 5 requests: two admissions, and the
third request is rejected with retryAfter at least 1. -/
theorem rateLimit_exact_admission_witness :
    ((Finset.range 5).filter
      (fun i => (RateLimitService.checkLimit 2 (i + 1) 30 0 60000).isOk = true)).card = 2 ∧
    (RateLimitService.checkLimit 2 2 30 0 60000).isOk = true ∧
    RateLimitService.checkLimit 2 3 30 0 60000 = .error ⟨2, 3, max 1 30⟩ ∧
    (1 : Int) ≤ max 1 30 := by
  have h := rateLimit_exact_admission 2 5 30 0 60000 (by norm_num)
  refine ⟨h.1, (h.2 2 (by norm_num) (by norm_num)).1 (by norm_num), ?_, ?_⟩
  · exact ((h.2 3 (by norm_num) (by norm_num)).2 (by norm_num)).1
  · exact ((h.2 3 (by norm_num) (by norm_num)).2 (by norm_num)).2

/-- C9: evaluation of the code at the failing input. Two distinct source
addresses produce the same per-endpoint admission key, because the key
builder forces the address through parseInt(identifier) || 0; only the
global key keeps the full address apart. -/
theorem rateLimitKey_ip_collision :
    RateLimitService.getRateLimitKey "10.0.0.1" "/api/v1/market/ticker" =
      RateLimitService.getRateLimitKey "10.0.0.2" "/api/v1/market/ticker" ∧
    ("10.0.0.1" : String) ≠ "10.0.0.2" ∧
    RateLimitService.getGlobalRateLimitKey "10.0.0.1" ≠
      RateLimitService.getGlobalRateLimitKey "10.0.0.2" := by
  refine ⟨by decide, by decide, by decide⟩

/-- C8: a request whose resolved identity is suspended or inactive fails
authentication with an AuthenticationError even when the provided
signature is the correct HMAC of timestamp, method, path and body under
that identity's secret — via the cached copy the explicit status check
rejects it, and via the store the active-only lookup never resolves it. -/
theorem suspended_identity_auth_fails
    (env : RequestEnv) (now : Int) (cache : Option UserRow) (db : DBState)
    (hmacSha256 : String → String → String) (u : UserRow) (ts : String)
    (hres : cache = some u ∨ (cache = none ∧ u ∈ db.users ∧
      ∀ v ∈ db.users, v.apiKey = u.apiKey → v = u))
    (hkey : env.headers.apiKey = some u.apiKey)
    (hts : env.headers.timestamp = some ts)
    (hsig : env.headers.signature =
      some (hmacSha256 u.apiSecret (ts ++ env.method ++ env.path ++ env.body)))
    (hstatus : u.status = "suspended" ∨ u.status = "inactive") :
    ∃ e, AuthService.authenticateRequest env now cache db hmacSha256 = .error e ∧
      e.kind = .authentication := by
  have hune : u.status ≠ "active" := by
    rcases hstatus with h | h <;> simp [h]
  simp only [AuthService.authenticateRequest, hkey, hts, hsig]
  by_cases hky : u.apiKey = "" ∨ ts = "" ∨
      hmacSha256 u.apiSecret (ts ++ env.method ++ env.path ++ env.body) = ""
  · rw [if_pos hky]
    exact ⟨_, rfl, rfl⟩
  · rw [if_neg hky]
    cases hp : jsParseInt ts with
    | none => exact ⟨_, rfl, rfl⟩
    | some t =>
      dsimp only
      by_cases hw : (now - t).natAbs > 300000
      · rw [if_pos hw]
        exact ⟨_, rfl, rfl⟩
      · rw [if_neg hw]
        rcases hres with hc | ⟨hc, hmem, huniq⟩
        · rw [hc]
          dsimp only
          rw [if_pos hune]
          exact ⟨_, rfl, rfl⟩
        · have hnone : Database.getUserByApiKey db u.apiKey = none := by
            unfold Database.getUserByApiKey
            rw [List.find?_eq_none]
            intro v hv hpred
            rw [Bool.and_eq_true, beq_iff_eq, beq_iff_eq] at hpred
            have hvu := huniq v hv hpred.1
            exact hune (hvu ▸ hpred.2)
          rw [hc, hnone]
          exact ⟨_, rfl, rfl⟩

/-- Witness for C8: the concrete suspended user, cached, with a correctly
signed request, fails authentication. -/
theorem suspended_identity_auth_fails_witness :
    (AuthService.authenticateRequest suspendedEnv 1000 (some suspendedUser) createDb2
      hmacModel).isOk = false := by
  obtain ⟨e, he, _⟩ := suspended_identity_auth_fails suspendedEnv 1000 (some suspendedUser)
    createDb2 hmacModel suspendedUser "1000" (Or.inl rfl) rfl rfl rfl (Or.inl rfl)
  rw [he]
  rfl
